import Mathlib

/-!
Shallow embedding of the content-security scanner of the
`ewave-development-suite-beta` repository:

* `scripts/lib/security-patterns.js` — the pattern library (`PATTERNS`),
  the scanner (`scanContent`), the classifier (`detectContentType`) and the
  frontmatter parser (`parseFrontmatter`);
* `scripts/hooks/security-gate.js` — the gate controller (`runHookMode`,
  `getAction`, `writeAuditLog`).

JavaScript regular expressions are translated into hand-written Lean
recognisers on `List Char`; each carries a comment quoting the regex it
embeds.  JavaScript strings are modelled by Lean `String` (code points
instead of UTF-16 units; all inputs considered here are ASCII).  File-system
and process state (`PLUGIN_DIR`, the current directory, the scan possibly
throwing) are passed as explicit parameters.
-/

namespace SecurityGate

/-! ### JavaScript value helpers -/

/-- JS `o || d` for an optional string: `undefined` and `""` are falsy. -/
def jsOrStr (o : Option String) (d : String) : String :=
  match o with
  | some s => if s = "" then d else s
  | none => d

/-- JS `o || ""` (used for `toolInput.file_path || ""` and the like). -/
def jsStr (o : Option String) : String :=
  jsOrStr o ""

/-- JS `n || 1` for a number: `0` is falsy (used for `result.line || 1`). -/
def jsOrNat (n : Nat) (d : Nat) : Nat :=
  if n = 0 then d else n

/-- JS `\s` (ASCII part): space, tab, newline, carriage return, vertical
tab, form feed. -/
def isWsChar (c : Char) : Bool :=
  c = ' ' || c = '\t' || c = '\n' || c = '\x0d' || c = '\x0b' || c = '\x0c'

/-- Case-insensitive character comparison (ASCII). -/
def charCI (a b : Char) : Bool :=
  a.toLower = b.toLower

/-- JS `String.prototype.toLowerCase` (ASCII). -/
def lcStr (s : String) : String :=
  String.mk (s.toList.map Char.toLower)

/-- JS `s.startsWith(pre)`. -/
def jsStartsWith (s pre : String) : Bool :=
  pre.toList.isPrefixOf s.toList

/-- JS `s.endsWith(suffix)`. -/
def jsEndsWith (s suffix : String) : Bool :=
  suffix.toList.isSuffixOf s.toList

/-- JS `s.trim()` (ASCII whitespace). -/
def jsTrim (s : String) : String :=
  String.mk (((s.toList.dropWhile isWsChar).reverse.dropWhile isWsChar).reverse)

/-- Group-splitting on a separator character (JS `s.split(sep)` for a
one-character separator): always returns at least one (possibly empty)
piece. -/
def splitChAux (sep : Char) : List Char → List Char → List String
  | [], cur => [String.mk cur.reverse]
  | c :: rest, cur =>
    if c = sep then String.mk cur.reverse :: splitChAux sep rest []
    else splitChAux sep rest (c :: cur)

def splitCh (sep : Char) (s : String) : List String :=
  splitChAux sep s.toList []

/-- Join with a separator (`Array.prototype.join` / `path` joining). -/
def joinSep (sep : String) : List String → String
  | [] => ""
  | [s] => s
  | s :: rest => s ++ sep ++ joinSep sep rest

/-- `filePath.replace(/\\/g, "/")`. -/
def slashify (s : String) : String :=
  String.mk (s.toList.map (fun c => if c = '\\' then '/' else c))

/-- Does `needle` occur as a (contiguous) sublist of `hay`? -/
def subList (needle hay : List Char) : Bool :=
  match hay with
  | [] => needle.isEmpty
  | _ :: t => needle.isPrefixOf hay || subList needle t

/-- JS `hay.includes(needle)` for strings. -/
def strIncludes (hay needle : String) : Bool :=
  subList needle.toList hay.toList

/-- `truncate` from security-patterns.js: cut to `maxLen` with a `...`
suffix when the input is longer. -/
def truncate (str : String) (maxLen : Nat) : String :=
  if str.length ≤ maxLen then str else String.mk (str.toList.take (maxLen - 3)) ++ "..."

/-! ### The data model -/

/-- One element of the `findings` array built by `scanContent`.  The JS
field `match` is called `matched` here because `match` is a Lean keyword. -/
structure Finding where
  severity : String
  id : String
  description : String
  line : Nat
  matched : String
deriving Repr, DecidableEq

/-- The result object of `scanContent` (`{ findings }`). -/
structure ScanResult where
  findings : List Finding
deriving Repr, DecidableEq

/-- The policy configuration record (`security-gate-config.json`).  Fields
are optional because the JSON file may omit any of them. -/
structure Config where
  blockOnSeverity : Option String := none
  warnOnSeverity : Option String := none
  auditLogPath : Option String := none
  whitelistedUrls : Option (List String) := none
  allowedPatterns : Option (List String) := none
deriving Repr, DecidableEq

/-- `(config && config.allowedPatterns) || []` in `scanContent`. -/
def cfgAllowedPatterns (config : Option Config) : List String :=
  match config with
  | some c => c.allowedPatterns.getD []
  | none => []

/-- `(config && config.whitelistedUrls) || []` in the MED-003 check. -/
def cfgWhitelistedUrls (config : Option Config) : List String :=
  match config with
  | some c => c.whitelistedUrls.getD []
  | none => []

/-! ### The severity sort of `scanContent`

`findings.sort((a, b) => (order[a.severity] || 3) - (order[b.severity] || 3))`
with `order = { CRITICAL: 0, HIGH: 1, MEDIUM: 2 }`.  Note that the source
uses `||`, not `??`: `order["CRITICAL"]` is `0`, which is falsy in JS, so a
CRITICAL finding gets sort key `3`, not `0`.  JS `Array.prototype.sort` is
stable, and a stable sort by key is unique, so it is modelled by a stable
insertion sort. -/

/-- The lookup in the `order` object: `order[sev]` (absent keys give
`undefined`, modelled by `none`). -/
def sortOrder (sev : String) : Option Nat :=
  if sev = "CRITICAL" then some 0
  else if sev = "HIGH" then some 1
  else if sev = "MEDIUM" then some 2
  else none

/-- `order[sev] || 3`: both `undefined` and `0` fall through to `3`. -/
def sortKey (sev : String) : Nat :=
  match sortOrder sev with
  | some n => if n = 0 then 3 else n
  | none => 3

/-- Stable insert: place `x` before the first element whose key is not
strictly smaller, so earlier elements win ties. -/
def insertStable (key : Finding → Nat) (x : Finding) : List Finding → List Finding
  | [] => [x]
  | y :: ys => if key y < key x then y :: insertStable key x ys else x :: y :: ys

/-- Stable sort by key (models the JS comparator sort). -/
def sortStable (key : Finding → Nat) : List Finding → List Finding
  | [] => []
  | x :: xs => insertStable key x (sortStable key xs)

/-! ### CRIT-001: hardcoded secret (custom `check`)

```
const secretRegex =
  /(?:api[_-]?key|password|secret|token|credential)\s*[:=]\s*["\x27]([a-zA-Z0-9+/=_\-]{16,})["\x27]/gi;
const fakePatterns = /^(sk-)?[0-9a-f]{16,}$|^(test|example|fake|dummy|placeholder|your[_-])/i;
```
-/

/-- Case-insensitive literal prefix: consume `pat`, return the rest. -/
def pLitCI (pat : List Char) (cs : List Char) : Option (List Char) :=
  match pat, cs with
  | [], _ => some cs
  | _ :: _, [] => none
  | p :: ps, c :: rest => if charCI p c then pLitCI ps rest else none

/-- Case-sensitive literal prefix. -/
def pLit (pat : List Char) (cs : List Char) : Option (List Char) :=
  match pat, cs with
  | [], _ => some cs
  | _ :: _, [] => none
  | p :: ps, c :: rest => if p = c then pLit ps rest else none

/-- `\s*`: consume the maximal whitespace run (safe because every
follower in the embedded regexes is a non-whitespace character). -/
def pWsStar (cs : List Char) : List Char :=
  match cs with
  | [] => []
  | c :: rest => if isWsChar c then pWsStar rest else cs

/-- `\s+`. -/
def pWsPlus (cs : List Char) : Option (List Char) :=
  match cs with
  | [] => none
  | c :: rest => if isWsChar c then some (pWsStar rest) else none

/-- A single character satisfying `pred`. -/
def pCharCl (pred : Char → Bool) (cs : List Char) : Option (List Char) :=
  match cs with
  | [] => none
  | c :: rest => if pred c then some rest else none

/-- Maximal run of characters satisfying `pred` (as a prefix), paired with
the rest.  Models a greedy character-class star/plus whose class excludes
every possible follower. -/
def pRun (pred : Char → Bool) (cs : List Char) : List Char × List Char :=
  match cs with
  | [] => ([], [])
  | c :: rest =>
    if pred c then
      let r := pRun pred rest
      (c :: r.1, r.2)
    else ([], cs)

/-- Ordered alternation of case-insensitive literals, each followed by the
continuation `k` (regex alternation backtracks into later alternatives when
the continuation fails). -/
def pAltCIThen (alts : List String) (k : List Char → Option (List Char)) (cs : List Char) :
    Option (List Char) :=
  match alts with
  | [] => none
  | a :: rest =>
    match pLitCI a.toList cs with
    | some cs2 =>
      match k cs2 with
      | some cs3 => some cs3
      | none => pAltCIThen rest k cs
    | none => pAltCIThen rest k cs

/-- Ordered alternation of case-sensitive literals with continuation. -/
def pAltThen (alts : List String) (k : List Char → Option (List Char)) (cs : List Char) :
    Option (List Char) :=
  match alts with
  | [] => none
  | a :: rest =>
    match pLit a.toList cs with
    | some cs2 =>
      match k cs2 with
      | some cs3 => some cs3
      | none => pAltThen rest k cs
    | none => pAltThen rest k cs

/-- The character class `[a-zA-Z0-9+/=_\-]` of the secret value. -/
def isSecretValChar (c : Char) : Bool :=
  c.isAlpha || c.isDigit || c = '+' || c = '/' || c = '=' || c = '_' || c = '-'

/-- `api[_-]?key` (case-insensitive), with the greedy optional separator. -/
def pApiKey (cs : List Char) : Option (List Char) :=
  match pLitCI "api".toList cs with
  | none => none
  | some cs2 =>
    match cs2 with
    | c :: rest =>
      if c = '_' || c = '-' then
        match pLitCI "key".toList rest with
        | some cs3 => some cs3
        | none => pLitCI "key".toList cs2
      else pLitCI "key".toList cs2
    | [] => none

/-- The keyword group `(?:api[_-]?key|password|secret|token|credential)`. -/
def pSecretKeyword (cs : List Char) : Option (List Char) :=
  match pApiKey cs with
  | some r => some r
  | none =>
    match pLitCI "password".toList cs with
    | some r => some r
    | none =>
      match pLitCI "secret".toList cs with
      | some r => some r
      | none =>
        match pLitCI "token".toList cs with
        | some r => some r
        | none => pLitCI "credential".toList cs

/-- Try the whole secret regex at the current position; on success return
(length of match[0], the captured group). -/
def secretAt (cs : List Char) : Option (Nat × String) :=
  match pSecretKeyword cs with
  | none => none
  | some afterKw =>
    let afterWs1 := pWsStar afterKw
    match pCharCl (fun c => c = ':' || c = '=') afterWs1 with
    | none => none
    | some afterSep =>
      let afterWs2 := pWsStar afterSep
      match pCharCl (fun c => c = '"' || c = '\x27') afterWs2 with
      | none => none
      | some afterQ =>
        let r := pRun isSecretValChar afterQ
        if r.1.length < 16 then none
        else
          match pCharCl (fun c => c = '"' || c = '\x27') r.2 with
          | none => none
          | some rest => some (cs.length - rest.length, String.mk r.1)

/-- Leftmost `exec` of the secret regex on one line: returns
(match[0], match[1]). -/
def secretExecFrom (cs : List Char) : Option (String × String) :=
  match cs with
  | [] => none
  | _ :: t =>
    match secretAt cs with
    | some (len, grp) => some (String.mk (cs.take len), grp)
    | none => secretExecFrom t

def secretExec (line : String) : Option (String × String) :=
  secretExecFrom line.toList

/-- `fakePatterns.test(v)`:
`^(sk-)?[0-9a-f]{16,}$ | ^(test|example|fake|dummy|placeholder|your[_-])` -/
def isHexChar (c : Char) : Bool :=
  c.isDigit || ('a' ≤ c.toLower && c.toLower ≤ 'f')

def isFakeValue (v : String) : Bool :=
  let cs := v.toList
  let hexTail :=
    match pLitCI "sk-".toList cs with
    | some rest => (rest.all isHexChar && 16 ≤ rest.length) ||
        (cs.all isHexChar && 16 ≤ cs.length)
    | none => cs.all isHexChar && 16 ≤ cs.length
  let prefixed :=
    (pLitCI "test".toList cs).isSome || (pLitCI "example".toList cs).isSome ||
    (pLitCI "fake".toList cs).isSome || (pLitCI "dummy".toList cs).isSome ||
    (pLitCI "placeholder".toList cs).isSome ||
    (pLitCI "your_".toList cs).isSome || (pLitCI "your-".toList cs).isSome
  hexTail || prefixed

/-- The bad-example marker test applied to one line:
`/(?:WRONG|BAD|NEVER|DON\x27T|don\x27t|wrong|bad|never|anti.?pattern)/i`.
With the `i` flag the word alternatives collapse to four case-insensitive
words plus `anti.?pattern`. -/
def antiPatternAt (cs : List Char) : Bool :=
  match pLitCI "anti".toList cs with
  | none => false
  | some rest =>
    (pLitCI "pattern".toList rest).isSome ||
    (match rest with
     | _ :: r2 => (pLitCI "pattern".toList r2).isSome
     | [] => false)

def badMarkerFrom (cs : List Char) : Bool :=
  match cs with
  | [] => false
  | _ :: t =>
    (pLitCI "wrong".toList cs).isSome || (pLitCI "bad".toList cs).isSome ||
    (pLitCI "never".toList cs).isSome || (pLitCI "don\x27t".toList cs).isSome ||
    antiPatternAt cs || badMarkerFrom t

def badMarker (line : String) : Bool :=
  badMarkerFrom line.toList

/-- The skip condition of the CRIT-001 loop for index `i`: the line itself
or `lines[Math.max(0, i-1)]` or `lines[Math.max(0, i-2)]` contains a
bad-example marker (Nat subtraction clamps at 0 exactly like `Math.max`). -/
def markerNear (lines : List String) (i : Nat) : Bool :=
  badMarker (lines.getD i "") || badMarker (lines.getD (i - 1) "") ||
  badMarker (lines.getD (i - 2) "")

/-- Result of a custom pattern check (`{ line, match }`). -/
structure CheckHit where
  line : Nat
  matched : String
deriving Repr, DecidableEq

/-- The line loop of the CRIT-001 check, with explicit fuel (the source
iterates `i` from 0 to `lines.length`; `fuel` bounds the remaining
iterations). -/
def crit001From (lines : List String) : Nat → Nat → Option CheckHit
  | 0, _ => none
  | fuel + 1, i =>
    if i < lines.length then
      if markerNear lines i then crit001From lines fuel (i + 1)
      else
        match secretExec (lines.getD i "") with
        | some (m0, grp) =>
          if isFakeValue grp then crit001From lines fuel (i + 1)
          else some { line := i + 1, matched := m0 }
        | none => crit001From lines fuel (i + 1)
    else none

/-- The CRIT-001 `check(content)` function. -/
def crit001Check (content : String) : Option CheckHit :=
  let lines := splitCh '\n' content
  crit001From lines lines.length 0

/-! ### Regex matchers for the remaining patterns

Each `rx...At` function tries its regex at the head of the input and
returns the remaining input after `match[0]` on success.  `execRx` turns
such a matcher into a leftmost `String.prototype.match`, returning
`match[0]`. -/

/-- Leftmost match: try at every position, return `match[0]`. -/
def execRxFrom (m : List Char → Option (List Char)) (cs : List Char) : Option String :=
  match m cs with
  | some rest => some (String.mk (cs.take (cs.length - rest.length)))
  | none =>
    match cs with
    | [] => none
    | _ :: t => execRxFrom m t

def execRx (m : List Char → Option (List Char)) (line : String) : Option String :=
  execRxFrom m line.toList

/-- Negative lookahead on case-insensitive literal alternatives
(consumes nothing). -/
def pNotAheadCI (alts : List String) (cs : List Char) : Option (List Char) :=
  if alts.any (fun a => (pLitCI a.toList cs).isSome) then none else some cs

/-- `https?` followed by the given literal (used with `://`). -/
def pHttpScheme (cs : List Char) : Option (List Char) :=
  match pLitCI "http".toList cs with
  | none => none
  | some r =>
    match pLitCI "s://".toList r with
    | some r2 => some r2
    | none => pLitCI "://".toList r

/-- CRIT-002:
`/(?:fetch|axios|got|node-fetch|request)\s*\(\s*["\x27\x60]https?:\/\/(?!localhost|127\.0\.0\.1|0\.0\.0\.0)/i` -/
def rxCrit002At (cs : List Char) : Option (List Char) :=
  pAltCIThen ["fetch", "axios", "got", "node-fetch", "request"]
    (fun cs2 => do
      let cs3 ← pCharCl (fun c => c = '(') (pWsStar cs2)
      let cs4 ← pCharCl (fun c => c = '"' || c = '\x27' || c = '\x60') (pWsStar cs3)
      let cs5 ← pHttpScheme cs4
      pNotAheadCI ["localhost", "127.0.0.1", "0.0.0.0"] cs5) cs

/-- `auth(?:entication|orization)?` (greedy optional tail). -/
def pAuthWord (cs : List Char) : Option (List Char) :=
  match pLitCI "auth".toList cs with
  | none => none
  | some r =>
    match pLitCI "entication".toList r with
    | some r2 => some r2
    | none =>
      match pLitCI "orization".toList r with
      | some r2 => some r2
      | none => some r

/-- `rate.?limit` (greedy optional any-character). -/
def pRateLimit (cs : List Char) : Option (List Char) :=
  match pLitCI "rate".toList cs with
  | none => none
  | some r =>
    match r with
    | _ :: r2 =>
      match pLitCI "limit".toList r2 with
      | some r3 => some r3
      | none => pLitCI "limit".toList r
    | [] => pLitCI "limit".toList r

/-- The object group of CRIT-003:
`(?:security|validation|auth(?:entication|orization)?|csrf|xss|sanitiz|rate.?limit|hook)` -/
def pCrit003Obj (cs : List Char) : Option (List Char) :=
  match pLitCI "security".toList cs with
  | some r => some r
  | none =>
    match pLitCI "validation".toList cs with
    | some r => some r
    | none =>
      match pAuthWord cs with
      | some r => some r
      | none =>
        match pLitCI "csrf".toList cs with
        | some r => some r
        | none =>
          match pLitCI "xss".toList cs with
          | some r => some r
          | none =>
            match pLitCI "sanitiz".toList cs with
            | some r => some r
            | none =>
              match pRateLimit cs with
              | some r => some r
              | none => pLitCI "hook".toList cs

/-- CRIT-003:
`/(?:skip|disable|bypass|ignore|remove|turn\s*off)\s+(?:security|...|hook)/i` -/
def rxCrit003At (cs : List Char) : Option (List Char) :=
  let tail := fun cs2 => do
    let cs3 ← pWsPlus cs2
    pCrit003Obj cs3
  match pAltCIThen ["skip", "disable", "bypass", "ignore", "remove"] tail cs with
  | some r => some r
  | none => do
    let cs2 ← pLitCI "turn".toList cs
    let cs3 ← pLitCI "off".toList (pWsStar cs2)
    tail cs3

/-- CRIT-004 prompt-injection phrases:
`/(?:ignore\s+(?:previous|all|above|prior)\s+instructions|you\s+are\s+now\s+|system\s*:\s*you\s+|forget\s+(?:all|your)\s+(?:previous|prior)\s+|override\s+(?:all|your)\s+(?:rules|instructions|safety))/i` -/
def rxCrit004At (cs : List Char) : Option (List Char) :=
  let alt1 := do
    let r ← pLitCI "ignore".toList cs
    let r2 ← pWsPlus r
    pAltCIThen ["previous", "all", "above", "prior"]
      (fun r3 => do
        let r4 ← pWsPlus r3
        pLitCI "instructions".toList r4) r2
  match alt1 with
  | some r => some r
  | none =>
    let alt2 := do
      let r ← pLitCI "you".toList cs
      let r2 ← pWsPlus r
      let r3 ← pLitCI "are".toList r2
      let r4 ← pWsPlus r3
      let r5 ← pLitCI "now".toList r4
      pWsPlus r5
    match alt2 with
    | some r => some r
    | none =>
      let alt3 := do
        let r ← pLitCI "system".toList cs
        let r2 ← pCharCl (fun c => c = ':') (pWsStar r)
        let r3 ← pLitCI "you".toList (pWsStar r2)
        pWsPlus r3
      match alt3 with
      | some r => some r
      | none =>
        let alt4 := do
          let r ← pLitCI "forget".toList cs
          let r2 ← pWsPlus r
          pAltCIThen ["all", "your"]
            (fun r3 => do
              let r4 ← pWsPlus r3
              pAltCIThen ["previous", "prior"] (fun r5 => pWsPlus r5) r4) r2
        match alt4 with
        | some r => some r
        | none => do
          let r ← pLitCI "override".toList cs
          let r2 ← pWsPlus r
          pAltCIThen ["all", "your"]
            (fun r3 => do
              let r4 ← pWsPlus r3
              match pLitCI "rules".toList r4 with
              | some r5 => some r5
              | none =>
                match pLitCI "instructions".toList r4 with
                | some r5 => some r5
                | none => pLitCI "safety".toList r4) r2

/-- The prefix of CRIT-005: `(?:eval\s*\(|new\s+Function\s*\()` (ci). -/
def crit005Head (cs : List Char) : Option (List Char) :=
  let alt1 := do
    let r ← pLitCI "eval".toList cs
    pCharCl (fun c => c = '(') (pWsStar r)
  match alt1 with
  | some r => some r
  | none => do
    let r ← pLitCI "new".toList cs
    let r2 ← pWsPlus r
    let r3 ← pLitCI "function".toList r2
    pCharCl (fun c => c = '(') (pWsStar r3)

/-- The suffix alternatives of CRIT-005: `(?:atob|Buffer\.from|decodeURI)` (ci). -/
def crit005Sfx (cs : List Char) : Option (List Char) :=
  match pLitCI "atob".toList cs with
  | some r => some r
  | none =>
    match pLitCI "buffer.from".toList cs with
    | some r => some r
    | none => pLitCI "decodeuri".toList cs

/-- Lazy `[\s\S]*?` up to the first suffix occurrence: rest after it. -/
def crit005FindSfx (cs : List Char) : Option (List Char) :=
  match crit005Sfx cs with
  | some r => some r
  | none =>
    match cs with
    | [] => none
    | _ :: t => crit005FindSfx t

/-- CRIT-005 (the only `multiline: true` pattern), matched against the
whole content:
`/(?:eval\s*\(|new\s+Function\s*\()[\s\S]*?(?:atob|Buffer\.from|decodeURI)/i`.
Returns `(match.index, match[0])` of the leftmost match. -/
def crit005FindFrom (cs : List Char) (idx : Nat) : Option (Nat × String) :=
  match (crit005Head cs).bind crit005FindSfx with
  | some rest => some (idx, String.mk (cs.take (cs.length - rest.length)))
  | none =>
    match cs with
    | [] => none
    | _ :: t => crit005FindFrom t (idx + 1)

def rxCrit005 (content : String) : Option (Nat × String) :=
  crit005FindFrom content.toList 0

/-- The character class `[A-Za-z0-9+/=]` of CRIT-005b. -/
def isB64Char (c : Char) : Bool :=
  c.isAlpha || c.isDigit || c = '+' || c = '/' || c = '='

/-- CRIT-005b (case-sensitive):
`/(?:atob|Buffer\.from)\s*\(\s*["\x27][A-Za-z0-9+/=]{60,}["\x27]/` -/
def rxCrit005bAt (cs : List Char) : Option (List Char) :=
  pAltThen ["atob", "Buffer.from"]
    (fun cs2 => do
      let cs3 ← pCharCl (fun c => c = '(') (pWsStar cs2)
      let cs4 ← pCharCl (fun c => c = '"' || c = '\x27') (pWsStar cs3)
      let r := pRun isB64Char cs4
      if r.1.length < 60 then none
      else pCharCl (fun c => c = '"' || c = '\x27') r.2) cs

/-- CRIT-006 (case-sensitive):
`/(?:https?\.request|https?\.get|net\.connect|dgram\.|fetch\s*\(|axios|got\s*\(|node-fetch|request\s*\()/` -/
def rxCrit006At (cs : List Char) : Option (List Char) :=
  let httpDot := fun (word : String) => do
    let r ← pLit "http".toList cs
    let r2 := match pLit "s".toList r with
      | some x => x
      | none => r
    pLit word.toList r2
  match httpDot ".request" with
  | some r => some r
  | none =>
    match httpDot ".get" with
    | some r => some r
    | none =>
      match pLit "net.connect".toList cs with
      | some r => some r
      | none =>
        match pLit "dgram.".toList cs with
        | some r => some r
        | none =>
          let callParen := fun (word : String) => do
            let r ← pLit word.toList cs
            pCharCl (fun c => c = '(') (pWsStar r)
          match callParen "fetch" with
          | some r => some r
          | none =>
            match pLit "axios".toList cs with
            | some r => some r
            | none =>
              match callParen "got" with
              | some r => some r
              | none =>
                match pLit "node-fetch".toList cs with
                | some r => some r
                | none => callParen "request"

/-- CRIT-007 (case-sensitive), with a negative lookahead over the rest of
the line:
`/(?:writeFileSync|appendFileSync|unlinkSync|rmdirSync|rmSync|createWriteStream)\s*\(\s*(?!.*(?:PLUGIN_DIR|__dirname|\.\/|\.\.\/logs))/` -/
def rxCrit007At (cs : List Char) : Option (List Char) :=
  pAltThen ["writeFileSync", "appendFileSync", "unlinkSync", "rmdirSync", "rmSync",
      "createWriteStream"]
    (fun cs2 => do
      let cs3 ← pCharCl (fun c => c = '(') (pWsStar cs2)
      let cs4 := pWsStar cs3
      if subList "PLUGIN_DIR".toList cs4 || subList "__dirname".toList cs4 ||
          subList "./".toList cs4 || subList "../logs".toList cs4 then none
      else some cs4) cs

/-- Lazy part of CRIT-008: `[\s\S]*?\]\s*=` (find the first `]` that is
followed by optional whitespace and `=`). -/
def crit008Close (cs : List Char) : Option (List Char) :=
  match cs with
  | [] => none
  | c :: t =>
    if c = ']' then
      match pCharCl (fun d => d = '=') (pWsStar t) with
      | some r => some r
      | none => crit008Close t
    else crit008Close t

/-- CRIT-008 (case-sensitive): `/process\.env\s*\[[\s\S]*?\]\s*=/` -/
def rxCrit008At (cs : List Char) : Option (List Char) := do
  let r ← pLit "process.env".toList cs
  let r2 ← pCharCl (fun c => c = '[') (pWsStar r)
  crit008Close r2

/-- Find the earliest occurrence of one of the (case-insensitive) literal
alternatives, lazily skipping anything before it (`(?:.*?)` plus the
alternation); returns the rest after the matched alternative. -/
def findCIAltsFrom (alts : List String) (cs : List Char) : Option (List Char) :=
  match pAltCIThen alts (fun r => some r) cs with
  | some r => some r
  | none =>
    match cs with
    | [] => none
    | _ :: t => findCIAltsFrom alts t

/-- HIGH-002:
`/(?:edit|modify|delete|remove|replace|overwrite)\s+(?:.*?)(?:security-gate|security-patterns|security-gate-config|plugin-security)/i` -/
def rxHigh002At (cs : List Char) : Option (List Char) :=
  pAltCIThen ["edit", "modify", "delete", "remove", "replace", "overwrite"]
    (fun cs2 => do
      let cs3 ← pWsPlus cs2
      findCIAltsFrom ["security-gate", "security-patterns", "security-gate-config",
        "plugin-security"] cs3) cs

/-- JS `\w`: letters, digits and underscore. -/
def isWordChar (c : Char) : Bool :=
  c.isAlpha || c.isDigit || c = '_'

/-- Word boundary after a word character: end of input or a non-word
character next. -/
def pWordBoundary (cs : List Char) : Option (List Char) :=
  match cs with
  | [] => some []
  | c :: _ => if isWordChar c then none else some cs

/-- HIGH-003 (case-sensitive): two dashes, then
`(?:no-verify|force-with-lease|force|skip-hooks|dangerously|no-gpg-sign)\b` -/
def rxHigh003At (cs : List Char) : Option (List Char) := do
  let r ← pLit "--".toList cs
  pAltThen ["no-verify", "force-with-lease", "force", "skip-hooks", "dangerously",
    "no-gpg-sign"] pWordBoundary r

/-- HIGH-004:
`/(?:edit|modify|delete|remove|rewrite)\s+(?:.*?)(?:hooks\.json|hooks[/\\]hooks|rules[/\\]security)/i` -/
def rxHigh004At (cs : List Char) : Option (List Char) :=
  pAltCIThen ["edit", "modify", "delete", "remove", "rewrite"]
    (fun cs2 => do
      let cs3 ← pWsPlus cs2
      findCIAltsFrom ["hooks.json", "hooks/hooks", "hooks\\hooks", "rules/security",
        "rules\\security"] cs3) cs

/-- HIGH-005 (case-sensitive):
`/(?:require\s*\(\s*[\x27"]child_process[\x27"]\)|execSync|spawnSync|exec\s*\()\s*/` -/
def rxHigh005At (cs : List Char) : Option (List Char) :=
  let core :=
    match
      (do
        let r ← pLit "require".toList cs
        let r2 ← pCharCl (fun c => c = '(') (pWsStar r)
        let r3 ← pCharCl (fun c => c = '\x27' || c = '"') (pWsStar r2)
        let r4 ← pLit "child_process".toList r3
        let r5 ← pCharCl (fun c => c = '\x27' || c = '"') r4
        pCharCl (fun c => c = ')') r5) with
    | some r => some r
    | none =>
      match pLit "execSync".toList cs with
      | some r => some r
      | none =>
        match pLit "spawnSync".toList cs with
        | some r => some r
        | none => do
          let r ← pLit "exec".toList cs
          pCharCl (fun c => c = '(') (pWsStar r)
  match core with
  | some r => some (pWsStar r)
  | none => none

/-- HIGH-006:
`/(?:edit|modify|write|update|change|overwrite|delete)\s+(?:.*?)\.claude[/\\]settings\.json/i` -/
def rxHigh006At (cs : List Char) : Option (List Char) :=
  pAltCIThen ["edit", "modify", "write", "update", "change", "overwrite", "delete"]
    (fun cs2 => do
      let cs3 ← pWsPlus cs2
      findCIAltsFrom [".claude/settings.json", ".claude\\settings.json"] cs3) cs

/-- MED-001 (case-sensitive): `/\.innerHTML\s*=/` -/
def rxMed001At (cs : List Char) : Option (List Char) := do
  let r ← pLit ".innerHTML".toList cs
  pCharCl (fun c => c = '=') (pWsStar r)

/-- MED-002 (case-sensitive): `/:\s*any\b/` -/
def rxMed002At (cs : List Char) : Option (List Char) := do
  let r ← pCharCl (fun c => c = ':') cs
  let r2 ← pLit "any".toList (pWsStar r)
  pWordBoundary r2

/-! ### MED-003: unrecognised external URL (custom `check`) -/

/-- The built-in trusted-domain list of the MED-003 check. -/
def defaultWhitelist : List String :=
  ["github.com", "owasp.org", "nodejs.org", "developer.mozilla.org",
   "nextjs.org", "supabase.com", "learn.microsoft.com", "npmjs.com",
   "localhost", "127.0.0.1", "example.com"]

/-- The domain class of `/https?:\/\/([^/\s"\x27\x60)]+)/g`. -/
def isDomainChar (c : Char) : Bool :=
  !(c = '/' || isWsChar c || c = '"' || c = '\x27' || c = '\x60' || c = ')')

/-- Try the URL regex at the current position: returns
(match[0], match[1], rest). -/
def urlAt (cs : List Char) : Option (String × String × List Char) := do
  let r ← pLit "http".toList cs
  let r2 := match pLit "s".toList r with
    | some x => x
    | none => r
  let r3 ← pLit "://".toList r2
  let run := pRun isDomainChar r3
  if run.1.length = 0 then none
  else
    some (String.mk (cs.take (cs.length - run.2.length)), String.mk run.1, run.2)

/-- `domain === w || domain.endsWith("." + w)` over the allowed list. -/
def domainAllowed (allowed : List String) (domain : String) : Bool :=
  allowed.any (fun w => domain = w || jsEndsWith domain ("." ++ w))

/-- The `exec` loop over one line (`lastIndex` advances past each match):
first URL whose domain is not whitelisted. -/
def urlScanFrom (allowed : List String) : Nat → List Char → Option String
  | 0, _ => none
  | _ + 1, [] => none
  | fuel + 1, cs@(_ :: t) =>
    match urlAt cs with
    | some (m0, domain, rest) =>
      if domainAllowed allowed (lcStr domain) then urlScanFrom allowed fuel rest
      else some m0
    | none => urlScanFrom allowed fuel t

/-- The MED-003 `check(content, _frontmatter, config)`: first
non-whitelisted URL over all lines, as `{ line, match }`. -/
def med003Lines (allowed : List String) : Nat → List String → Option CheckHit
  | _, [] => none
  | i, line :: rest =>
    match urlScanFrom allowed (line.toList.length + 1) line.toList with
    | some m0 => some { line := i + 1, matched := m0 }
    | none => med003Lines allowed (i + 1) rest

def med003Check (content : String) (config : Option Config) : Option CheckHit :=
  let allowed := defaultWhitelist ++ cfgWhitelistedUrls config
  med003Lines allowed 0 (splitCh '\n' content)

/-! ### `parseFrontmatter`

`const match = content.match(regex)` with the block regex
`^---\s*\n([\s\S]*?)\n--- ` (without the trailing space), then a
line-oriented key/value parse of the captured block.  Values are either
strings or arrays of strings (the JS object is modelled as an ordered
association list with in-place update, like JS property assignment). -/

/-- A frontmatter value: a plain string or an array of strings. -/
inductive FValue where
  | str (s : String)
  | arr (xs : List String)
deriving Repr, DecidableEq

abbrev Frontmatter := List (String × FValue)

def fmGet (m : Frontmatter) (k : String) : Option FValue :=
  (m.find? (fun p => p.1 = k)).map (fun p => p.2)

/-- JS property assignment: overwrite in place, else append. -/
def fmSet (m : Frontmatter) (k : String) (v : FValue) : Frontmatter :=
  if m.any (fun p => p.1 = k) then m.map (fun p => if p.1 = k then (k, v) else p)
  else m ++ [(k, v)]

/-- `if (!Array.isArray(result[k])) result[k] = []; result[k].push(x)`. -/
def fmPush (m : Frontmatter) (k : String) (x : String) : Frontmatter :=
  match fmGet m k with
  | some (.arr xs) => fmSet m k (.arr (xs ++ [x]))
  | _ => fmSet m k (.arr [x])

/-- `\s*\n` after the opening `---`: the greedy whitespace run backtracks
to the LAST newline inside the maximal whitespace run; returns the rest
after that newline, or `none` when the run contains no newline. -/
def wsRunLastNl (cs : List Char) (best : Option (List Char)) : Option (List Char) :=
  match cs with
  | [] => best
  | c :: t =>
    if isWsChar c then wsRunLastNl t (if c = '\n' then some t else best)
    else best

/-- Lazy capture `([\s\S]*?)` up to the first occurrence of the needle:
the prefix strictly before it. -/
def splitBeforeSub (needle : List Char) (cs : List Char) : Option (List Char) :=
  if needle.isPrefixOf cs then some []
  else
    match cs with
    | [] => none
    | c :: t => (splitBeforeSub needle t).map (fun r => c :: r)

/-- The frontmatter block regex: `some yaml` when
`^---\s*\n([\s\S]*?)\n--- ` (no trailing space) matches, where `yaml` is
`match[1]`. -/
def fmBlock (content : String) : Option String :=
  match pLit "---".toList content.toList with
  | none => none
  | some afterDashes =>
    match wsRunLastNl afterDashes none with
    | none => none
    | some afterNl => (splitBeforeSub "\n---".toList afterNl).map String.mk

/-- `value.replace(/^["\x27]|["\x27]$/g, "")`: strip one leading and one
trailing quote. -/
def stripQuotes (s : String) : String :=
  let isQ := fun (c : Char) => c = '"' || c = '\x27'
  let s1 := match s.toList with
    | c :: t => if isQ c then String.mk t else s
    | [] => s
  match s1.toList.getLast? with
  | some c => if isQ c then String.mk s1.toList.dropLast else s1
  | none => s1

/-- The block-array-item regex `^\s+-\s+(.+)$` applied to one line:
`some match[1]` on success.  (When nothing follows the maximal whitespace
run after the dash, the greedy `\s+` backtracks one character so that
`(.+)` can take it.) -/
def arrayItemVal (line : String) : Option String :=
  match pWsPlus line.toList with
  | none => none
  | some r =>
    match pCharCl (fun c => c = '-') r with
    | none => none
    | some r2 =>
      match r2 with
      | c :: _ =>
        if isWsChar c then
          let run := pRun isWsChar r2
          if run.2.isEmpty then
            if 2 ≤ run.1.length then
              match run.1.getLast? with
              | some last => some (String.mk [last])
              | none => none
            else none
          else some (String.mk run.2)
        else none
      | [] => none

/-- The key/value regex `^(\w+)\s*:\s*(.*)$`: `some (match[1], match[2])`. -/
def kvSplit (line : String) : Option (String × String) :=
  let run := pRun isWordChar line.toList
  if run.1.isEmpty then none
  else
    match pCharCl (fun c => c = ':') (pWsStar run.2) with
    | none => none
    | some r => some (String.mk run.1, String.mk (pWsStar r))

/-- A minimal model of `JSON.parse` restricted to arrays of double-quoted
strings (the only shape this code ever feeds it); anything else fails and
the caller falls back to naive comma-splitting.  String escapes are not
modelled. -/
def jsonStrTok (cs : List Char) : Option (String × List Char) :=
  match cs with
  | '"' :: t =>
    let run := pRun (fun c => c ≠ '"') t
    match run.2 with
    | '"' :: rest => some (String.mk run.1, rest)
    | _ => none
  | _ => none

def jsonArrItems (fuel : Nat) (cs : List Char) (acc : List String) :
    Option (List String × List Char) :=
  match fuel with
  | 0 => none
  | fuel + 1 =>
    match jsonStrTok (pWsStar cs) with
    | none => none
    | some (s, rest) =>
      match pWsStar rest with
      | ',' :: t => jsonArrItems fuel t (acc ++ [s])
      | r => some (acc ++ [s], r)

def jsonParseStrArr (v : String) : Option (List String) :=
  match v.toList with
  | '[' :: t =>
    match pWsStar t with
    | ']' :: rest => if (pWsStar rest).isEmpty then some [] else none
    | cs =>
      match jsonArrItems (cs.length + 1) cs [] with
      | some (xs, rest) =>
        match pWsStar rest with
        | ']' :: rest2 => if (pWsStar rest2).isEmpty then some xs else none
        | _ => none
      | none => none
  | _ => none

/-- The fallback "YAML-style array" parse:
`value.slice(1, -1).split(",").map(s => s.trim().replace(/^["\x27]|["\x27]$/g, ""))`. -/
def commaSplitArr (v : String) : List String :=
  let inner := String.mk (v.toList.drop 1).dropLast
  (splitCh ',' inner).map (fun s => stripQuotes (jsTrim s))

/-- Parse one `key: value` right-hand side into an `FValue`
(the body after `currentKey = key` in the source). -/
def fmValueOf (value : String) : FValue :=
  if jsStartsWith value "[" && jsEndsWith value "]" then
    match jsonParseStrArr value with
    | some xs => .arr xs
    | none => .arr (commaSplitArr value)
  else if 2 ≤ value.length &&
      (jsStartsWith value "\"" || jsStartsWith value "\x27") &&
      (jsEndsWith value "\"" || jsEndsWith value "\x27") then
    .str (String.mk (value.toList.drop 1).dropLast)
  else .str value

/-- One line of the frontmatter loop; the state is
`(result, currentKey)`. -/
def fmStep (st : Frontmatter × Option String) (line : String) :
    Frontmatter × Option String :=
  match arrayItemVal line, st.2 with
  | some v, some ck => (fmPush st.1 ck (stripQuotes v), st.2)
  | _, _ =>
    match kvSplit line with
    | some (key, rawValue) =>
      let value := jsTrim rawValue
      if value = "" then (fmSet st.1 key (.arr []), some key)
      else (fmSet st.1 key (fmValueOf value), some key)
    | none => st

/-- `parseFrontmatter(content)`. -/
def parseFrontmatter (content : String) : Option Frontmatter :=
  match fmBlock content with
  | none => none
  | some yaml =>
    let r := ((splitCh '\n' yaml).foldl fmStep ([], none)).1
    if r.isEmpty then none else some r

/-! ### HIGH-001 and MED-004 (frontmatter-based custom checks) -/

/-- A minimal `JSON.stringify` for arrays of strings (escapes not
modelled; only used to build a finding excerpt). -/
def jsonStringifyArr (xs : List String) : String :=
  "[" ++ joinSep "," (xs.map (fun s => "\"" ++ s ++ "\"")) ++ "]"

/-- HIGH-001 `check(content, frontmatter)`: the agent requests all six
tools. -/
def high001Check (fm : Option Frontmatter) : Option CheckHit :=
  match fm with
  | none => none
  | some m =>
    match fmGet m "tools" with
    | some (.arr tools) =>
      if 6 ≤ tools.length &&
          (["Read", "Write", "Edit", "Bash", "Grep", "Glob"].all
            (fun t => tools.contains t)) then
        some { line := 1, matched := "tools: " ++ jsonStringifyArr tools }
      else none
    | _ => none

/-- `(frontmatter.name || "")` read as a string.  (If the field held an
array the JS would throw on `.toLowerCase()`; that is not modelled — no
claim depends on it.) -/
def fmStrD (m : Frontmatter) (k : String) : String :=
  match fmGet m k with
  | some (.str s) => s
  | _ => ""

/-- MED-004 `check(content, frontmatter)`: `model: haiku` together with a
security-related agent name. -/
def med004Check (fm : Option Frontmatter) : Option CheckHit :=
  match fm with
  | none => none
  | some m =>
    let name := lcStr (fmStrD m "name")
    let model := lcStr (fmStrD m "model")
    if model = "haiku" &&
        (["security", "auth", "admin", "permission", "access"].any
          (fun k => strIncludes name k)) then
      some { line := 1, matched := "model: " ++ model ++ ", name: " ++ name }
    else none

/-! ### The pattern library (`PATTERNS`) -/

/-- A pattern matcher: a custom `check` function, a per-line regex, or a
`multiline: true` regex run against the whole content. -/
inductive PMatcher where
  | chk (f : String → Option Frontmatter → Option Config → Option CheckHit)
  | rxLine (f : String → Option String)
  | rxMulti (f : String → Option (Nat × String))

structure Pattern where
  id : String
  severity : String
  description : String
  contentTypes : List String
  matcher : PMatcher

/-- The ordered pattern catalog of `security-patterns.js`. -/
def PATTERNS : List Pattern := [
  { id := "CRIT-001", severity := "CRITICAL",
    description := "Hardcoded secret or API key in content",
    contentTypes := ["agent", "skill", "command", "rule", "hook-script"],
    matcher := .chk (fun content _ _ => crit001Check content) },
  { id := "CRIT-002", severity := "CRITICAL",
    description := "Data exfiltration - fetch/curl/wget to external URL",
    contentTypes := ["hook-script"],
    matcher := .rxLine (execRx rxCrit002At) },
  { id := "CRIT-003", severity := "CRITICAL",
    description := "Instructions to skip or disable security checks",
    contentTypes := ["agent", "skill", "command", "rule"],
    matcher := .rxLine (execRx rxCrit003At) },
  { id := "CRIT-004", severity := "CRITICAL",
    description := "Prompt injection phrase detected",
    contentTypes := ["agent", "skill", "command", "rule"],
    matcher := .rxLine (execRx rxCrit004At) },
  { id := "CRIT-005", severity := "CRITICAL",
    description := "Obfuscated code - base64 payload or eval with decode",
    contentTypes := ["agent", "skill", "command", "rule", "hook-script"],
    matcher := .rxMulti rxCrit005 },
  { id := "CRIT-005b", severity := "CRITICAL",
    description := "Obfuscated code - large base64 string (>60 chars)",
    contentTypes := ["agent", "skill", "command", "rule", "hook-script"],
    matcher := .rxLine (execRx rxCrit005bAt) },
  { id := "CRIT-006", severity := "CRITICAL",
    description := "Network request in hook script",
    contentTypes := ["hook-script"],
    matcher := .rxLine (execRx rxCrit006At) },
  { id := "CRIT-007", severity := "CRITICAL",
    description := "File system write/delete outside plugin directory",
    contentTypes := ["hook-script"],
    matcher := .rxLine (execRx rxCrit007At) },
  { id := "CRIT-008", severity := "CRITICAL",
    description := "Process.env write or dangerous process manipulation",
    contentTypes := ["hook-script"],
    matcher := .rxLine (execRx rxCrit008At) },
  { id := "HIGH-001", severity := "HIGH",
    description := "Agent requests ALL 6 tools (Read, Write, Edit, Bash, Grep, Glob)",
    contentTypes := ["agent"],
    matcher := .chk (fun _ fm _ => high001Check fm) },
  { id := "HIGH-002", severity := "HIGH",
    description := "Instructions to modify security gate files",
    contentTypes := ["agent", "skill", "command", "rule"],
    matcher := .rxLine (execRx rxHigh002At) },
  { id := "HIGH-003", severity := "HIGH",
    description := "Suggesting --no-verify, --force, or --skip-hooks flags",
    contentTypes := ["agent", "skill", "command", "rule"],
    matcher := .rxLine (execRx rxHigh003At) },
  { id := "HIGH-004", severity := "HIGH",
    description := "Instructions to modify hooks.json or security rules",
    contentTypes := ["agent", "skill", "command"],
    matcher := .rxLine (execRx rxHigh004At) },
  { id := "HIGH-005", severity := "HIGH",
    description := "child_process or exec usage in skill/command code examples",
    contentTypes := ["skill", "command"],
    matcher := .rxLine (execRx rxHigh005At) },
  { id := "HIGH-006", severity := "HIGH",
    description := "Instructions to modify .claude/settings.json",
    contentTypes := ["agent", "skill", "command", "rule"],
    matcher := .rxLine (execRx rxHigh006At) },
  { id := "MED-001", severity := "MEDIUM",
    description := "innerHTML assignment in code example",
    contentTypes := ["skill", "command"],
    matcher := .rxLine (execRx rxMed001At) },
  { id := "MED-002", severity := "MEDIUM",
    description := "TypeScript \"any\" type usage in code example",
    contentTypes := ["skill", "command"],
    matcher := .rxLine (execRx rxMed002At) },
  { id := "MED-003", severity := "MEDIUM",
    description := "Unrecognized external URL (not in whitelist)",
    contentTypes := ["agent", "skill", "command", "rule"],
    matcher := .chk (fun content _ cfg => med003Check content cfg) },
  { id := "MED-004", severity := "MEDIUM",
    description := "Agent uses model:haiku for security-sensitive role",
    contentTypes := ["agent"],
    matcher := .chk (fun _ fm _ => med004Check fm) }]

/-! ### `scanContent` -/

/-- The per-line loop for a regex pattern (first matching line wins). -/
def firstLineHit (f : String → Option String) : Nat → List String → Option (Nat × String)
  | _, [] => none
  | i, line :: rest =>
    match f line with
    | some m0 => some (i, m0)
    | none => firstLineHit f (i + 1) rest

/-- One iteration of the `for (const pattern of PATTERNS)` loop. -/
def scanStep (contentType : String) (allowedPatterns : List String)
    (content : String) (frontmatter : Option Frontmatter) (config : Option Config)
    (lines : List String) (findings : List Finding) (p : Pattern) : List Finding :=
  if !(p.contentTypes.contains contentType) then findings
  else if allowedPatterns.contains p.id then findings
  else
    match p.matcher with
    | .chk f =>
      match f content frontmatter config with
      | some r =>
        let fd : Finding :=
          { severity := p.severity, id := p.id, description := p.description,
            line := jsOrNat r.line 1, matched := truncate r.matched 120 }
        findings ++ [fd]
      | none => findings
    | .rxMulti f =>
      match f content with
      | some (idx, m0) =>
        let lineNum := ((content.toList.take idx).filter (fun c => c = '\n')).length + 1
        let fd : Finding :=
          { severity := p.severity, id := p.id, description := p.description,
            line := lineNum,
            matched := truncate (String.mk (m0.toList.map
              (fun c => if c = '\n' then ' ' else c))) 120 }
        findings ++ [fd]
      | none => findings
    | .rxLine f =>
      match firstLineHit f 0 lines with
      | some (i, m0) =>
        let fd : Finding :=
          { severity := p.severity, id := p.id, description := p.description,
            line := i + 1, matched := truncate m0 120 }
        findings ++ [fd]
      | none => findings

/-- `scanContent(content, contentType, config)`. -/
def scanContent (content : String) (contentType : String) (config : Option Config) :
    ScanResult :=
  let allowedPatterns := cfgAllowedPatterns config
  let frontmatter :=
    if ["agent", "skill", "command", "rule"].contains contentType then
      parseFrontmatter content
    else none
  let lines := splitCh '\n' content
  let findings := PATTERNS.foldl
    (scanStep contentType allowedPatterns content frontmatter config lines) []
  { findings := sortStable (fun f => sortKey f.severity) findings }

/-! ### `detectContentType`

The path is normalised (backslashes to slashes, lower case) and matched
against anchored regexes; each predicate below is the segment reading of
its regex, with the original quoted in the comment. -/

/-- `[^/]+\.md` as a whole path segment. -/
def mdFileSeg (s : String) : Bool :=
  jsEndsWith s ".md" && 4 ≤ s.length

/-- `[^/]+\.js` as a whole path segment. -/
def jsFileSeg (s : String) : Bool :=
  jsEndsWith s ".js" && 4 ≤ s.length

/-- `(?:^|\/)<dir>\/[^/]+\.md$`: the last two segments are `dir` and a
`.md` file. -/
def directChildMd (dir : String) (segs : List String) : Bool :=
  match segs.reverse with
  | file :: parent :: _ => parent = dir && mdFileSeg file
  | _ => false

/-- `(?:^|\/)skills\//`: some non-final segment is `skills`. -/
def underSkills (segs : List String) : Bool :=
  segs.dropLast.contains "skills"

/-- `(?:^|\/)hooks\/hooks\.json$`. -/
def hooksJsonPath (segs : List String) : Bool :=
  match segs.reverse with
  | file :: parent :: _ => parent = "hooks" && file = "hooks.json"
  | _ => false

/-- `(?:^|\/)scripts\/hooks\/[^/]+\.js$`. -/
def scriptsHooksJs (segs : List String) : Bool :=
  match segs.reverse with
  | file :: p1 :: p2 :: _ => p2 = "scripts" && p1 = "hooks" && jsFileSeg file
  | _ => false

/-- The normalised path of `detectContentType`:
`filePath.replace(/\\/g, "/").toLowerCase()`. -/
def normalizePath (filePath : String) : String :=
  lcStr (slashify filePath)

/-- `detectContentType(filePath)`. -/
def detectContentType (filePath : String) : String :=
  let normalized := normalizePath filePath
  let segs := splitCh '/' normalized
  if directChildMd "agents" segs then "agent"
  else if underSkills segs && jsEndsWith normalized ".md" then "skill"
  else if directChildMd "commands" segs then "command"
  else if directChildMd "rules" segs then "rule"
  else if hooksJsonPath segs then "hook-config"
  else if scriptsHooksJs segs then "hook-script"
  else "unknown"

/-! ## The gate controller (`security-gate.js`)

`PLUGIN_DIR` (an absolute directory) and the process working directory are
environment facts and are passed as explicit parameters.  POSIX paths are
modelled as slash-separated strings. -/

def PROTECTED_DIRS : List String :=
  ["agents", "skills", "commands", "rules", "hooks", "scripts"]

def SELF_PATHS : List String :=
  ["scripts/hooks/security-gate.js",
   "scripts/lib/security-patterns.js",
   "scripts/config/security-gate-config.json",
   "commands/security-scan.md",
   "rules/plugin-security.md"]

/-- The hardcoded fallback of `loadConfig` (also the default policy). -/
def defaultConfig : Config :=
  { blockOnSeverity := some "CRITICAL", warnOnSeverity := some "HIGH",
    auditLogPath := some "logs/security-audit.jsonl",
    whitelistedUrls := some [], allowedPatterns := some [] }

/-! ### Path arithmetic (Node `path` for POSIX paths) -/

/-- Normalise a segment list: drop empty and `.` segments, let `..` pop
(at the root `..` stays at the root, as Node does). -/
def normSegs (segs : List String) : List String :=
  segs.foldl
    (fun acc s =>
      if s = "" || s = "." then acc
      else if s = ".." then acc.dropLast
      else acc ++ [s]) []

/-- `path.resolve(base, p)` for an absolute `base`: absolute `p` wins,
otherwise join and normalise. -/
def resolvePath (base p : String) : String :=
  let joined := if jsStartsWith p "/" then p else base ++ "/" ++ p
  "/" ++ joinSep "/" (normSegs (splitCh '/' joined))

/-- `path.relative(fromDir, toPath)` for absolute normalised inputs:
pop the common segment prefix, then `..` out of the rest of `fromDir`. -/
def commonPrefixLen : List String → List String → Nat
  | a :: as2, b :: bs => if a = b then commonPrefixLen as2 bs + 1 else 0
  | _, _ => 0

def pathRelative (fromDir toPath : String) : String :=
  let fs := normSegs (splitCh '/' fromDir)
  let ts := normSegs (splitCh '/' toPath)
  let k := commonPrefixLen fs ts
  joinSep "/" (List.replicate (fs.length - k) ".." ++ ts.drop k)

/-! ### `writeAuditLog` -/

/-- An audit log entry (the serialised JSON object, minus the timestamp,
which is wall-clock input). -/
structure AuditEntry where
  event : String
  trigger : String
  tool : String := ""
  targetFile : String := ""
  contentType : String := ""
  findings : List Finding := []
  action : String := ""
deriving Repr, DecidableEq

/-- The destination path computed by `writeAuditLog`:
`path.resolve(PLUGIN_DIR, config.auditLogPath || "logs/security-audit.jsonl")`,
replaced by the in-root default when the result does not *string-prefix*
match `PLUGIN_DIR` (the check of line 91 of security-gate.js). -/
def auditLogDest (pluginDir : String) (config : Config) : String :=
  let logPath := resolvePath pluginDir
    (jsOrStr config.auditLogPath "logs/security-audit.jsonl")
  if !(jsStartsWith logPath pluginDir) then
    pluginDir ++ "/logs/security-audit.jsonl"
  else logPath

/-- `writeAuditLog(config, entry)`, with the append-only log file
modelled as a map from destination path to entry list: returns the
destination and the appended log.  (Directory creation and I/O failure,
which the source swallows, are not modelled.) -/
def writeAuditLog (pluginDir : String) (config : Config) (log : List AuditEntry)
    (entry : AuditEntry) : String × List AuditEntry :=
  (auditLogDest pluginDir config, log ++ [entry])

/-! ### `getAction` -/

/-- `severityLevel[sev]` (`{ CRITICAL: 0, HIGH: 1, MEDIUM: 2 }`). -/
def severityLevel (sev : String) : Option Nat :=
  if sev = "CRITICAL" then some 0
  else if sev = "HIGH" then some 1
  else if sev = "MEDIUM" then some 2
  else none

/-- `severityLevel[config.blockOnSeverity || "CRITICAL"] ?? 0`. -/
def blockLevelOf (config : Config) : Nat :=
  (severityLevel (jsOrStr config.blockOnSeverity "CRITICAL")).getD 0

/-- `severityLevel[config.warnOnSeverity || "HIGH"] ?? 1`. -/
def warnLevelOf (config : Config) : Nat :=
  (severityLevel (jsOrStr config.warnOnSeverity "HIGH")).getD 1

/-- `getAction(findings, config)` (note the `??` here, unlike the sort). -/
def getAction (findings : List Finding) (config : Config) : String :=
  if findings.any (fun f => (severityLevel f.severity).getD 3 ≤ blockLevelOf config) then
    "BLOCK"
  else if findings.any (fun f => (severityLevel f.severity).getD 3 ≤ warnLevelOf config) then
    "WARN"
  else "PASS"

/-! ### Hook mode (`runHookMode`) -/

/-- The `tool_input` payload of a PreToolUse event. -/
structure ToolInput where
  file_path : Option String := none
  content : Option String := none
  new_string : Option String := none
deriving Repr, DecidableEq

/-- The parsed stdin event (`input.tool`, `input.tool_input`). -/
structure HookInput where
  tool : Option String := none
  toolInput : ToolInput := {}
deriving Repr, DecidableEq

/-- Content extraction: full `content` for Write, else `new_string` for
Edit, else empty (JS truthiness: the empty string is falsy). -/
def contentOf (t : ToolInput) : String :=
  if jsStr t.content = "" then jsStr t.new_string else jsStr t.content

/-- The protected-directory test:
`new RegExp("(?:^|[/])" + dir + "[/]", "i").test(normalizedPath)` over
`PROTECTED_DIRS` (the directory names are lower-case, so the `i` flag
amounts to lowering the path). -/
def isProtected (normalizedPath : String) : Bool :=
  PROTECTED_DIRS.any (fun dir =>
    strIncludes ("/" ++ lcStr normalizedPath) ("/" ++ dir ++ "/"))

/-- How a hook-mode invocation ends. -/
inductive HookOutcome where
  | passthrough   -- event re-emitted before any scan
  | block         -- process.exit(2)
  | warnAllow     -- HIGH warnings printed, write allowed
  | infoAllow     -- MEDIUM notes printed, write allowed
  | silentAllow   -- no findings surfaced, write allowed
deriving Repr, DecidableEq

/-- The display/exit decision of `runHookMode` after a successful scan:
hardcoded on CRITICAL / HIGH / MEDIUM counts (independent of the
configured thresholds). -/
def hookDecision (findings : List Finding) : HookOutcome :=
  if findings.isEmpty then .silentAllow
  else
    let criticals := findings.filter (fun f => f.severity = "CRITICAL")
    let highs := findings.filter (fun f => f.severity = "HIGH")
    let mediums := findings.filter (fun f => f.severity = "MEDIUM")
    if 0 < criticals.length then .block
    else if 0 < highs.length then .warnAllow
    else if 0 < mediums.length then .infoAllow
    else .silentAllow

/-- Result of one hook-mode invocation: the outcome, plus the audit entry
appended by `writeAuditLog` (if the control flow reached it). -/
structure HookResult where
  outcome : HookOutcome
  audit : Option AuditEntry
deriving Repr, DecidableEq

/-- `runHookMode`, with the environment made explicit:
* `pluginDir` — the absolute `PLUGIN_DIR`;
* `cwd` — the process working directory (`path.resolve(filePath)` resolves
  relative paths against it);
* `parsed` — the `JSON.parse(data)` result (`Except.error` models a parse
  exception, which the catch handler sees with `contentToScan` still
  empty);
* `config` — the `loadConfig()` result;
* `scanFn` — the call to `scanContent`; `Except.error` models an
  unexpected exception thrown while scanning, handled by the catch block
  (fail-closed when `contentToScan` is non-empty). -/
def runHookModeCore (pluginDir cwd : String) (parsed : Except Unit HookInput)
    (config : Config)
    (scanFn : String → String → Config → Except Unit ScanResult) : HookResult :=
  match parsed with
  | .error _ => { outcome := .passthrough, audit := none }
  | .ok input =>
    let toolInput := input.toolInput
    let filePath := jsStr toolInput.file_path
    let contentToScan := contentOf toolInput
    if contentToScan = "" || filePath = "" then
      { outcome := .passthrough, audit := none }
    else
      let normalizedPath := slashify filePath
      if !isProtected normalizedPath then
        { outcome := .passthrough, audit := none }
      else
        let relativePath := slashify (pathRelative pluginDir (resolvePath cwd filePath))
        if SELF_PATHS.contains relativePath then
          { outcome := .passthrough, audit := none }
        else
          let contentType := detectContentType filePath
          match scanFn contentToScan contentType config with
          | .error _ =>
            if 0 < contentToScan.length then { outcome := .block, audit := none }
            else { outcome := .passthrough, audit := none }
          | .ok result =>
            let action := getAction result.findings config
            let entry : AuditEntry :=
              { event := if action = "BLOCK" then "block" else "scan",
                trigger := "PreToolUse", tool := jsOrStr input.tool "unknown",
                targetFile := filePath, contentType := contentType,
                findings := result.findings, action := action }
            { outcome := hookDecision result.findings, audit := some entry }

/-- The real scan call (`scanContent` does not throw in the model). -/
def scanOk : String → String → Config → Except Unit ScanResult :=
  fun content contentType config => .ok (scanContent content contentType (some config))

/-- A scan call that throws (for the fail-closed analysis). -/
def scanThrow : String → String → Config → Except Unit ScanResult :=
  fun _ _ _ => .error ()

/-- Hook mode as actually wired: `scanContent` is called with the loaded
config. -/
def runHookMode (pluginDir cwd : String) (parsed : Except Unit HookInput)
    (config : Config) : HookResult :=
  runHookModeCore pluginDir cwd parsed config scanOk

/-! ## Shared lemmas -/

theorem mem_insertStable {key : Finding → Nat} {x a : Finding} :
    ∀ {l : List Finding}, a ∈ insertStable key x l ↔ a = x ∨ a ∈ l := by
  intro l
  induction l with
  | nil => simp [insertStable]
  | cons y ys ih =>
    by_cases h : key y < key x
    · simp only [insertStable, if_pos h, List.mem_cons, ih]
      tauto
    · simp only [insertStable, if_neg h, List.mem_cons]

theorem mem_sortStable {key : Finding → Nat} {a : Finding} :
    ∀ {l : List Finding}, a ∈ sortStable key l ↔ a ∈ l := by
  intro l
  induction l with
  | nil => simp [sortStable]
  | cons x xs ih =>
    simp only [sortStable, mem_insertStable, ih, List.mem_cons]

/-- A pattern whose category set excludes the content type contributes
nothing. -/
theorem scanStep_not_applicable {ct : String} {ap : List String} {content : String}
    {fm : Option Frontmatter} {cfg : Option Config} {lines : List String}
    {fs : List Finding} {p : Pattern} (h : p.contentTypes.contains ct = false) :
    scanStep ct ap content fm cfg lines fs p = fs := by
  have h2 : ct ∉ p.contentTypes := by simpa using h
  simp [scanStep, h2]

theorem foldl_scanStep_skip {ct : String} {ap : List String} {content : String}
    {fm : Option Frontmatter} {cfg : Option Config} {lines : List String} :
    ∀ (ps : List Pattern) (fs : List Finding),
      (∀ p ∈ ps, p.contentTypes.contains ct = false) →
      ps.foldl (scanStep ct ap content fm cfg lines) fs = fs := by
  intro ps
  induction ps with
  | nil => intro fs _; rfl
  | cons p rest ih =>
    intro fs h
    have hp : p.contentTypes.contains ct = false := h p (List.mem_cons_self p rest)
    simp only [List.foldl_cons, scanStep_not_applicable hp]
    exact ih fs (fun q hq => h q (List.mem_cons_of_mem p hq))

/-- No pattern applies to the `unknown` content type, so scanning it
yields no findings. -/
theorem scanContent_unknown (content : String) (config : Option Config) :
    scanContent content "unknown" config = { findings := [] } := by
  have h : ∀ p ∈ PATTERNS, p.contentTypes.contains "unknown" = false := by decide
  simp only [scanContent]
  rw [foldl_scanStep_skip PATTERNS [] h]
  rfl

/-- Every finding produced by one step of the pattern loop is either
inherited or carries the id of a non-exempted pattern. -/
theorem scanStep_mem {ct : String} {ap : List String} {content : String}
    {fm : Option Frontmatter} {cfg : Option Config} {lines : List String}
    {fs : List Finding} {p : Pattern} {f : Finding}
    (h : f ∈ scanStep ct ap content fm cfg lines fs p) :
    f ∈ fs ∨ ap.contains f.id = false := by
  simp only [scanStep] at h
  split at h
  · exact Or.inl h
  · split at h
    · exact Or.inl h
    · rename_i hap
      have hap2 : ap.contains p.id = false := by simpa using hap
      split at h <;> split at h <;>
        first
          | exact Or.inl h
          | · rcases List.mem_append.mp h with hin | hone
              · exact Or.inl hin
              · rcases List.mem_singleton.mp hone with rfl
                exact Or.inr hap2

theorem foldl_scanStep_mem {ct : String} {ap : List String} {content : String}
    {fm : Option Frontmatter} {cfg : Option Config} {lines : List String} :
    ∀ (ps : List Pattern) (fs : List Finding) (f : Finding),
      f ∈ ps.foldl (scanStep ct ap content fm cfg lines) fs →
      f ∈ fs ∨ ap.contains f.id = false := by
  intro ps
  induction ps with
  | nil => intro fs f h; exact Or.inl h
  | cons p rest ih =>
    intro fs f h
    simp only [List.foldl_cons] at h
    rcases ih _ f h with hin | hfree
    · exact scanStep_mem hin
    · exact Or.inr hfree

/-- Every finding returned by `scanContent` has a non-exempted id. -/
theorem scanContent_mem_not_allowed {content ct : String} {config : Option Config}
    {f : Finding} (h : f ∈ (scanContent content ct config).findings) :
    (cfgAllowedPatterns config).contains f.id = false := by
  simp only [scanContent] at h
  rcases foldl_scanStep_mem PATTERNS [] f (mem_sortStable.mp h) with hin | hfree
  · cases hin
  · exact hfree

theorem strLengthPos {s : String} (h : s ≠ "") : 0 < s.length := by
  rcases s with ⟨cs⟩
  cases cs with
  | nil => exact absurd rfl h
  | cons c t => simp [String.length]

/-- A nonempty filter means a witness (Prop form used by the decision
characterisations). -/
theorem filter_length_pos_iff {p : Finding → Bool} {l : List Finding} :
    0 < (l.filter p).length ↔ ∃ f ∈ l, p f = true := by
  rw [List.length_pos]
  constructor
  · intro hne
    rcases List.exists_mem_of_ne_nil _ hne with ⟨f, hf⟩
    rcases List.mem_filter.mp hf with ⟨hmem, hp⟩
    exact ⟨f, hmem, hp⟩
  · rintro ⟨f, hmem, hp⟩
    intro hnil
    have : f ∈ l.filter p := List.mem_filter.mpr ⟨hmem, hp⟩
    rw [hnil] at this
    cases this

/-- `runHookMode` reaching the scanner: the guards passed and the scan
returned normally. -/
theorem runHookModeCore_scan_ok {pd cwd : String} {inp : HookInput} {cfg : Config}
    {scanFn : String → String → Config → Except Unit ScanResult} {result : ScanResult}
    (h1 : contentOf inp.toolInput ≠ "")
    (h2 : jsStr inp.toolInput.file_path ≠ "")
    (h3 : isProtected (slashify (jsStr inp.toolInput.file_path)) = true)
    (h4 : SELF_PATHS.contains
      (slashify (pathRelative pd (resolvePath cwd (jsStr inp.toolInput.file_path)))) = false)
    (hscan : scanFn (contentOf inp.toolInput)
      (detectContentType (jsStr inp.toolInput.file_path)) cfg = .ok result) :
    runHookModeCore pd cwd (.ok inp) cfg scanFn =
      { outcome := hookDecision result.findings,
        audit := some {
          event := if getAction result.findings cfg = "BLOCK" then "block" else "scan",
          trigger := "PreToolUse", tool := jsOrStr inp.tool "unknown",
          targetFile := jsStr inp.toolInput.file_path,
          contentType := detectContentType (jsStr inp.toolInput.file_path),
          findings := result.findings,
          action := getAction result.findings cfg } } := by
  simp only [runHookModeCore, h1, h2, h3, h4, hscan]
  simp

/-- `runHookMode` reaching the scanner which then throws: fail-closed. -/
theorem runHookModeCore_scan_error {pd cwd : String} {inp : HookInput} {cfg : Config}
    {scanFn : String → String → Config → Except Unit ScanResult}
    (h1 : contentOf inp.toolInput ≠ "")
    (h2 : jsStr inp.toolInput.file_path ≠ "")
    (h3 : isProtected (slashify (jsStr inp.toolInput.file_path)) = true)
    (h4 : SELF_PATHS.contains
      (slashify (pathRelative pd (resolvePath cwd (jsStr inp.toolInput.file_path)))) = false)
    (hscan : scanFn (contentOf inp.toolInput)
      (detectContentType (jsStr inp.toolInput.file_path)) cfg = .error ()) :
    runHookModeCore pd cwd (.ok inp) cfg scanFn =
      { outcome := .block, audit := none } := by
  have hlen : 0 < (contentOf inp.toolInput).length := strLengthPos h1
  simp only [runHookModeCore, h1, h2, h3, h4, hscan]
  simp [hlen]

/-- `hookDecision` blocks exactly when a CRITICAL finding is present. -/
theorem hookDecision_block_iff {findings : List Finding} :
    hookDecision findings = .block ↔ ∃ f ∈ findings, f.severity = "CRITICAL" := by
  simp only [hookDecision]
  by_cases he : findings.isEmpty
  · rcases List.isEmpty_iff.mp he with rfl
    simp
  · simp only [he, if_false, Bool.false_eq_true]
    by_cases hc : 0 < (findings.filter (fun f => f.severity = "CRITICAL")).length
    · simp only [hc, if_true]
      rcases filter_length_pos_iff.mp hc with ⟨f, hmem, hp⟩
      simpa using ⟨f, hmem, by simpa using hp⟩
    · rw [if_neg hc]
      have hno : ¬∃ f ∈ findings, f.severity = "CRITICAL" := by
        intro ⟨f, hmem, hp⟩
        exact hc (filter_length_pos_iff.mpr ⟨f, hmem, by simpa using hp⟩)
      split
      · simpa using hno
      · split
        · simpa using hno
        · simpa using hno

/-- `hookDecision` warns (and allows) exactly when findings contain a HIGH
but no CRITICAL finding. -/
theorem hookDecision_warn_iff {findings : List Finding} :
    hookDecision findings = .warnAllow ↔
      (¬∃ f ∈ findings, f.severity = "CRITICAL") ∧ ∃ f ∈ findings, f.severity = "HIGH" := by
  simp only [hookDecision]
  by_cases he : findings.isEmpty
  · rcases List.isEmpty_iff.mp he with rfl
    simp
  · simp only [he, if_false, Bool.false_eq_true]
    by_cases hc : 0 < (findings.filter (fun f => f.severity = "CRITICAL")).length
    · simp only [hc, if_true]
      rcases filter_length_pos_iff.mp hc with ⟨f, hmem, hp⟩
      have : ∃ f ∈ findings, f.severity = "CRITICAL" := ⟨f, hmem, by simpa using hp⟩
      simp [this]
    · rw [if_neg hc]
      have hnoc : ¬∃ f ∈ findings, f.severity = "CRITICAL" := by
        intro ⟨f, hmem, hp⟩
        exact hc (filter_length_pos_iff.mpr ⟨f, hmem, by simpa using hp⟩)
      by_cases hh : 0 < (findings.filter (fun f => f.severity = "HIGH")).length
      · simp only [hh, if_true]
        rcases filter_length_pos_iff.mp hh with ⟨f, hmem, hp⟩
        have : ∃ f ∈ findings, f.severity = "HIGH" := ⟨f, hmem, by simpa using hp⟩
        simp [hnoc, this]
      · rw [if_neg hh]
        have hnoh : ¬∃ f ∈ findings, f.severity = "HIGH" := by
          intro ⟨f, hmem, hp⟩
          exact hh (filter_length_pos_iff.mpr ⟨f, hmem, by simpa using hp⟩)
        split
        · constructor
          · intro hco
            exact absurd hco (by decide)
          · rintro ⟨-, hex⟩
            exact absurd hex hnoh
        · constructor
          · intro hco
            exact absurd hco (by decide)
          · rintro ⟨-, hex⟩
            exact absurd hex hnoh

/-- `getAction` returns BLOCK exactly when some finding reaches the
configured block threshold. -/
theorem getAction_block_iff {findings : List Finding} {cfg : Config} :
    getAction findings cfg = "BLOCK" ↔
      ∃ f ∈ findings, (severityLevel f.severity).getD 3 ≤ blockLevelOf cfg := by
  simp only [getAction]
  by_cases hb : findings.any
      (fun f => (severityLevel f.severity).getD 3 ≤ blockLevelOf cfg)
  · simp only [hb, if_true]
    rcases List.any_eq_true.mp hb with ⟨f, hmem, hp⟩
    simpa using ⟨f, hmem, by simpa using hp⟩
  · rw [if_neg (by simpa using hb)]
    have hno : ¬∃ f ∈ findings, (severityLevel f.severity).getD 3 ≤ blockLevelOf cfg := by
      intro ⟨f, hmem, hp⟩
      exact hb (List.any_eq_true.mpr ⟨f, hmem, by simpa using hp⟩)
    split
    · simpa using hno
    · simpa using hno

/-- Any hit returned by the CRIT-001 line loop sits on a line whose
bad-example-marker test was false. -/
theorem crit001From_unmarked {lines : List String} :
    ∀ (fuel start : Nat) (hit : CheckHit),
      crit001From lines fuel start = some hit →
      ∃ j, hit.line = j + 1 ∧ markerNear lines j = false := by
  intro fuel
  induction fuel with
  | zero =>
    intro start hit h
    simp [crit001From] at h
  | succ n ih =>
    intro start hit h
    simp only [crit001From] at h
    split at h
    · split at h
      · exact ih _ _ h
      · rename_i hmar
        split at h
        · split at h
          · exact ih _ _ h
          · rcases Option.some.inj h with rfl
            exact ⟨start, rfl, by simpa using hmar⟩
        · exact ih _ _ h
    · cases h

/-- Two three-character suffixes of the same character list are equal;
`.md` and `.js` are not. -/
theorem suffix_md_ne_js {cs : List Char} (h1 : ['.', 'm', 'd'] <:+ cs)
    (h2 : ['.', 'j', 's'] <:+ cs) : False := by
  rcases h1 with ⟨t1, he1⟩
  rcases h2 with ⟨t2, he2⟩
  have he : t2 ++ ['.', 'j', 's'] = t1 ++ ['.', 'm', 'd'] := by rw [he1, he2]
  have hlen : t2.length = t1.length := by
    have := congrArg List.length he
    simp at this
    omega
  have heq := (List.append_inj he hlen).2
  simp at heq

theorem jsEndsWith_md_not_js {s : String} (h : jsEndsWith s ".md" = true) :
    jsEndsWith s ".js" = false := by
  by_cases hj : jsEndsWith s ".js" = true
  · exfalso
    exact suffix_md_ne_js (List.isSuffixOf_iff_suffix.mp h)
      (List.isSuffixOf_iff_suffix.mp hj)
  · simpa using hj

theorem jsEndsWith_md_ne_hooksJson {s : String} (h : jsEndsWith s ".md" = true) :
    s ≠ "hooks.json" := by
  intro heq
  rw [heq] at h
  exact absurd h (by decide)

/-- `getAction` returns WARN exactly when the warn threshold (but not the
block threshold) is reached. -/
theorem getAction_warn_iff {findings : List Finding} {cfg : Config} :
    getAction findings cfg = "WARN" ↔
      (¬∃ f ∈ findings, (severityLevel f.severity).getD 3 ≤ blockLevelOf cfg) ∧
        ∃ f ∈ findings, (severityLevel f.severity).getD 3 ≤ warnLevelOf cfg := by
  simp only [getAction]
  by_cases hb : findings.any
      (fun f => (severityLevel f.severity).getD 3 ≤ blockLevelOf cfg)
  · simp only [hb, if_true]
    rcases List.any_eq_true.mp hb with ⟨f, hmem, hp⟩
    have : ∃ f ∈ findings, (severityLevel f.severity).getD 3 ≤ blockLevelOf cfg :=
      ⟨f, hmem, by simpa using hp⟩
    simp [this]
  · rw [if_neg (by simpa using hb)]
    have hnob : ¬∃ f ∈ findings, (severityLevel f.severity).getD 3 ≤ blockLevelOf cfg := by
      intro ⟨f, hmem, hp⟩
      exact hb (List.any_eq_true.mpr ⟨f, hmem, by simpa using hp⟩)
    by_cases hw : findings.any
        (fun f => (severityLevel f.severity).getD 3 ≤ warnLevelOf cfg)
    · simp only [hw, if_true]
      rcases List.any_eq_true.mp hw with ⟨f, hmem, hp⟩
      have : ∃ f ∈ findings, (severityLevel f.severity).getD 3 ≤ warnLevelOf cfg :=
        ⟨f, hmem, by simpa using hp⟩
      simp [hnob, this]
    · rw [if_neg (by simpa using hw)]
      have hnow : ¬∃ f ∈ findings, (severityLevel f.severity).getD 3 ≤ warnLevelOf cfg := by
        intro ⟨f, hmem, hp⟩
        exact hw (List.any_eq_true.mpr ⟨f, hmem, by simpa using hp⟩)
      constructor
      · intro hco
        exact absurd hco (by decide)
      · rintro ⟨-, hex⟩
        exact absurd hex hnow

/-- `getAction` on an empty finding list always passes. -/
theorem getAction_nil (cfg : Config) : getAction [] cfg = "PASS" := by
  simp [getAction]

/-! ## The claims -/

/-- Claim C1 (code-bug evidence).  The spec and the comment above the sort
say CRITICAL findings come first, but the comparator reads
`order[severity] || 3` and `order["CRITICAL"]` is `0`, which is falsy in
JS, so CRITICAL gets sort key 3 and is placed after HIGH (key 1) and
MEDIUM (key 2).  On content triggering both CRIT-003 (line 1) and
HIGH-003 (line 2) under the `skill` category, the returned findings are
ordered HIGH before CRITICAL. -/
theorem scanContent_severity_sort_bug :
    ((scanContent "skip security checks\nuse --force" "skill" none).findings.map
      (fun f => f.severity)) = ["HIGH", "CRITICAL"] ∧
    sortKey "CRITICAL" = 3 ∧ sortKey "HIGH" = 1 ∧ sortKey "MEDIUM" = 2 := by
  decide

/-- Exhibits for claim C2: a policy with `blockOnSeverity: "HIGH"` and a
write whose content triggers exactly one HIGH finding. -/
def c2Cfg : Config := { defaultConfig with blockOnSeverity := some "HIGH" }

def c2Input : HookInput :=
  { tool := some "Write",
    toolInput := { file_path := some "skills/x.md", content := some "use --force" } }

/-- Claim C2 (counterexample).  With `blockOnSeverity` configured as HIGH
and a single HIGH finding, `getAction` (and the audit entry) says BLOCK,
but the write is NOT blocked: the hook warns and allows, because the
block/exit decision in `runHookMode` is hardcoded on CRITICAL findings
and ignores the configured threshold. -/
theorem hook_threshold_block_cex :
    ((scanContent "use --force" "skill" (some c2Cfg)).findings.map
      (fun f => f.severity)) = ["HIGH"] ∧
    getAction (scanContent "use --force" "skill" (some c2Cfg)).findings c2Cfg = "BLOCK" ∧
    (runHookMode "/plugin" "/plugin" (.ok c2Input) c2Cfg).outcome = .warnAllow ∧
    ((runHookMode "/plugin" "/plugin" (.ok c2Input) c2Cfg).audit.map
      (fun e => e.action)) = some "BLOCK" := by
  decide

/-- Claim C2 (amended).  For every Intercept call on a protected,
non-self path with non-empty content: the action recorded in the audit
entry is `getAction`, a pure function of the findings and the policy
thresholds (BLOCK iff some finding is at or above the block threshold,
WARN iff otherwise some finding is at or above the warn threshold); but
the decision applied to the write itself is hardcoded: blocked iff some
finding is CRITICAL, warned iff otherwise some finding is HIGH,
regardless of the thresholds. -/
theorem hook_decision_thresholds_amended :
    (∀ (pd cwd : String) (inp : HookInput) (cfg : Config) (sr : ScanResult),
      contentOf inp.toolInput ≠ "" →
      jsStr inp.toolInput.file_path ≠ "" →
      isProtected (slashify (jsStr inp.toolInput.file_path)) = true →
      SELF_PATHS.contains (slashify (pathRelative pd (resolvePath cwd
        (jsStr inp.toolInput.file_path)))) = false →
      runHookModeCore pd cwd (.ok inp) cfg (fun _ _ _ => .ok sr) =
        { outcome := hookDecision sr.findings,
          audit := some {
            event := if getAction sr.findings cfg = "BLOCK" then "block" else "scan",
            trigger := "PreToolUse", tool := jsOrStr inp.tool "unknown",
            targetFile := jsStr inp.toolInput.file_path,
            contentType := detectContentType (jsStr inp.toolInput.file_path),
            findings := sr.findings,
            action := getAction sr.findings cfg } }) ∧
    (∀ findings : List Finding,
      hookDecision findings = .block ↔ ∃ f ∈ findings, f.severity = "CRITICAL") ∧
    (∀ findings : List Finding,
      hookDecision findings = .warnAllow ↔
        (¬∃ f ∈ findings, f.severity = "CRITICAL") ∧
          ∃ f ∈ findings, f.severity = "HIGH") ∧
    (∀ (findings : List Finding) (cfg : Config),
      getAction findings cfg = "BLOCK" ↔
        ∃ f ∈ findings, (severityLevel f.severity).getD 3 ≤ blockLevelOf cfg) ∧
    (∀ (findings : List Finding) (cfg : Config),
      getAction findings cfg = "WARN" ↔
        (¬∃ f ∈ findings, (severityLevel f.severity).getD 3 ≤ blockLevelOf cfg) ∧
          ∃ f ∈ findings, (severityLevel f.severity).getD 3 ≤ warnLevelOf cfg) :=
  ⟨fun _ _ _ _ _ h1 h2 h3 h4 => runHookModeCore_scan_ok h1 h2 h3 h4 rfl,
   fun _ => hookDecision_block_iff,
   fun _ => hookDecision_warn_iff,
   fun _ _ => getAction_block_iff,
   fun _ _ => getAction_warn_iff⟩

/-- Witness for the amended claim C2, at the counterexample input. -/
theorem hook_decision_thresholds_amended_witness :
    contentOf c2Input.toolInput ≠ "" ∧
    jsStr c2Input.toolInput.file_path ≠ "" ∧
    isProtected (slashify (jsStr c2Input.toolInput.file_path)) = true ∧
    SELF_PATHS.contains (slashify (pathRelative "/plugin" (resolvePath "/plugin"
      (jsStr c2Input.toolInput.file_path)))) = false ∧
    runHookModeCore "/plugin" "/plugin" (.ok c2Input) c2Cfg
        (fun _ _ _ => .ok { findings := [] }) =
      { outcome := hookDecision ({ findings := [] } : ScanResult).findings,
        audit := some {
          event := if getAction ({ findings := [] } : ScanResult).findings c2Cfg = "BLOCK"
            then "block" else "scan",
          trigger := "PreToolUse", tool := jsOrStr c2Input.tool "unknown",
          targetFile := jsStr c2Input.toolInput.file_path,
          contentType := detectContentType (jsStr c2Input.toolInput.file_path),
          findings := ({ findings := [] } : ScanResult).findings,
          action := getAction ({ findings := [] } : ScanResult).findings c2Cfg } } :=
  ⟨by decide, by decide, by decide, by decide,
   hook_decision_thresholds_amended.1 "/plugin" "/plugin" c2Input c2Cfg
     { findings := [] } (by decide) (by decide) (by decide) (by decide)⟩

/-- Claim C3.  Fail-closed behaviour of hook mode: when the scan throws
after non-empty content was extracted (and the guarded path was actually
going to be scanned), the process exits with the blocking status; when no
content was extracted — including when the stdin event does not even
parse — the error leads to a transparent passthrough. -/
theorem hook_fail_closed :
    (∀ (pd cwd : String) (inp : HookInput) (cfg : Config),
      contentOf inp.toolInput ≠ "" →
      jsStr inp.toolInput.file_path ≠ "" →
      isProtected (slashify (jsStr inp.toolInput.file_path)) = true →
      SELF_PATHS.contains (slashify (pathRelative pd (resolvePath cwd
        (jsStr inp.toolInput.file_path)))) = false →
      runHookModeCore pd cwd (.ok inp) cfg scanThrow =
        { outcome := .block, audit := none }) ∧
    (∀ (pd cwd : String) (inp : HookInput) (cfg : Config),
      contentOf inp.toolInput = "" →
      runHookModeCore pd cwd (.ok inp) cfg scanThrow =
        { outcome := .passthrough, audit := none }) ∧
    (∀ (pd cwd : String) (cfg : Config),
      runHookModeCore pd cwd (.error ()) cfg scanThrow =
        { outcome := .passthrough, audit := none }) := by
  refine ⟨fun pd cwd inp cfg h1 h2 h3 h4 => runHookModeCore_scan_error h1 h2 h3 h4 rfl,
    fun pd cwd inp cfg h1 => ?_, fun pd cwd cfg => rfl⟩
  simp [runHookModeCore, h1]

/-- Exhibit for claim C3: a protected write with content, where the scan
is made to throw. -/
def c3Input : HookInput :=
  { tool := some "Write",
    toolInput := { file_path := some "skills/x.md", content := some "hello" } }

/-- Witness for claim C3. -/
theorem hook_fail_closed_witness :
    contentOf c3Input.toolInput ≠ "" ∧
    jsStr c3Input.toolInput.file_path ≠ "" ∧
    isProtected (slashify (jsStr c3Input.toolInput.file_path)) = true ∧
    SELF_PATHS.contains (slashify (pathRelative "/plugin" (resolvePath "/plugin"
      (jsStr c3Input.toolInput.file_path)))) = false ∧
    runHookModeCore "/plugin" "/plugin" (.ok c3Input) defaultConfig scanThrow =
      { outcome := .block, audit := none } :=
  ⟨by decide, by decide, by decide, by decide,
   hook_fail_closed.1 "/plugin" "/plugin" c3Input defaultConfig
     (by decide) (by decide) (by decide) (by decide)⟩

/-- Exhibit for claim C4: a protected path classifying as `unknown`
(`.md` file nested below `agents/`), written with non-empty content. -/
def c4Input : HookInput :=
  { tool := some "Write",
    toolInput := { file_path := some "agents/sub/x.md", content := some "hello" } }

/-- Claim C4 (counterexample).  An Intercept call on a protected,
unknown-category path with content DOES append an audit entry, and its
kind is exactly `scan` — the claim that no audit entry of kind `scan` is
appended is false on the code (`writeAuditLog` runs before the
empty-findings early return). -/
theorem unknown_audit_entry_cex :
    detectContentType "agents/sub/x.md" = "unknown" ∧
    isProtected (slashify "agents/sub/x.md") = true ∧
    ((runHookMode "/plugin" "/plugin" (.ok c4Input) defaultConfig).audit.map
      (fun e => e.event)) = some "scan" := by
  decide

/-- Claim C4 (amended).  Scanning `unknown`-category content yields zero
findings, and an Intercept call on such a protected, non-self path with
content allows the write silently (no block, no warning) — but it does
append exactly one audit entry, of kind `scan`, with an empty findings
list and action PASS. -/
theorem unknown_scan_amended :
    (∀ (content : String) (config : Option Config),
      scanContent content "unknown" config = { findings := [] }) ∧
    (∀ (pd cwd : String) (inp : HookInput) (cfg : Config),
      contentOf inp.toolInput ≠ "" →
      jsStr inp.toolInput.file_path ≠ "" →
      isProtected (slashify (jsStr inp.toolInput.file_path)) = true →
      SELF_PATHS.contains (slashify (pathRelative pd (resolvePath cwd
        (jsStr inp.toolInput.file_path)))) = false →
      detectContentType (jsStr inp.toolInput.file_path) = "unknown" →
      runHookMode pd cwd (.ok inp) cfg =
        { outcome := .silentAllow,
          audit := some {
            event := "scan", trigger := "PreToolUse",
            tool := jsOrStr inp.tool "unknown",
            targetFile := jsStr inp.toolInput.file_path,
            contentType := "unknown", findings := [], action := "PASS" } }) := by
  refine ⟨scanContent_unknown, fun pd cwd inp cfg h1 h2 h3 h4 h5 => ?_⟩
  have hscan : scanOk (contentOf inp.toolInput)
      (detectContentType (jsStr inp.toolInput.file_path)) cfg =
      .ok ({ findings := [] } : ScanResult) := by
    simp only [scanOk, h5, scanContent_unknown]
  rw [runHookMode, runHookModeCore_scan_ok h1 h2 h3 h4 hscan]
  simp [h5, getAction_nil, hookDecision]

/-- Witness for the amended claim C4. -/
theorem unknown_scan_amended_witness :
    contentOf c4Input.toolInput ≠ "" ∧
    jsStr c4Input.toolInput.file_path ≠ "" ∧
    isProtected (slashify (jsStr c4Input.toolInput.file_path)) = true ∧
    SELF_PATHS.contains (slashify (pathRelative "/plugin" (resolvePath "/plugin"
      (jsStr c4Input.toolInput.file_path)))) = false ∧
    detectContentType (jsStr c4Input.toolInput.file_path) = "unknown" ∧
    runHookMode "/plugin" "/plugin" (.ok c4Input) defaultConfig =
      { outcome := .silentAllow,
        audit := some {
          event := "scan", trigger := "PreToolUse",
          tool := jsOrStr c4Input.tool "unknown",
          targetFile := jsStr c4Input.toolInput.file_path,
          contentType := "unknown", findings := [], action := "PASS" } } :=
  ⟨by decide, by decide, by decide, by decide, by decide,
   unknown_scan_amended.2 "/plugin" "/plugin" c4Input defaultConfig
     (by decide) (by decide) (by decide) (by decide) (by decide)⟩

/-- Exhibits for claim C5: a policy whose audit-log path resolves to a
sibling directory whose name extends the plugin directory name. -/
def c5Cfg : Config :=
  { defaultConfig with auditLogPath := some "../plugin-evil/audit.jsonl" }

def c5Entry : AuditEntry := { event := "scan", trigger := "PreToolUse" }

/-- Claim C5 (code-bug evidence).  The sandbox check is
`logPath.startsWith(PLUGIN_DIR)` without a trailing separator, so a
configured path resolving to `/home/user/plugin-evil/...` — outside the
plugin root `/home/user/plugin` — passes the check and the audit entry is
written outside the installation root instead of being redirected to the
in-root default. -/
theorem auditLog_sandbox_escape :
    (writeAuditLog "/home/user/plugin" c5Cfg [] c5Entry).1 =
      "/home/user/plugin-evil/audit.jsonl" ∧
    jsStartsWith "/home/user/plugin-evil/audit.jsonl" "/home/user/plugin/" = false ∧
    "/home/user/plugin-evil/audit.jsonl" ≠ "/home/user/plugin" ∧
    (writeAuditLog "/home/user/plugin" c5Cfg [] c5Entry).2 = [c5Entry] := by
  decide

/-- Claim C6.  The scenario content under the `agent` category with an
empty exemption list yields exactly one finding: CRIT-001, CRITICAL, at
line 1. -/
theorem scan_secret_scenario :
    ((scanContent "const apiKey = \"sk-proj-AbCdEfGh12345678\"" "agent"
      (some defaultConfig)).findings.map (fun f => (f.id, f.severity, f.line))) =
      [("CRIT-001", "CRITICAL", 1)] := by
  decide

/-- Claim C7.  The CRIT-001 check never reports a finding on a line whose
bad-example-marker test (the line itself or either of the two clamped
preceding lines contains WRONG/BAD/NEVER/DON'T/anti-pattern,
case-insensitively) is positive; and the scenario content preceded by a
line containing WRONG yields no CRIT-001 hit at all. -/
theorem crit001_marker_suppression :
    (∀ (content : String) (i : Nat),
      markerNear (splitCh '\n' content) i = true →
      (crit001Check content).map CheckHit.line ≠ some (i + 1)) ∧
    crit001Check "This is WRONG:\nconst apiKey = \"sk-proj-AbCdEfGh12345678\"" = none := by
  constructor
  · intro content i hm hcontra
    rcases hres : crit001Check content with _ | hit
    · rw [hres] at hcontra
      cases hcontra
    · rw [hres] at hcontra
      have hline : hit.line = i + 1 := by simpa using hcontra
      have hfrom : crit001From (splitCh '\n' content)
          (splitCh '\n' content).length 0 = some hit := by
        simpa [crit001Check] using hres
      rcases crit001From_unmarked _ _ _ hfrom with ⟨j, hj, hmf⟩
      have : j = i := by omega
      rw [this] at hmf
      rw [hm] at hmf
      cases hmf
  · decide

/-- Witness for claim C7, at the WRONG-marked scenario content. -/
theorem crit001_marker_suppression_witness :
    markerNear (splitCh '\n'
      "This is WRONG:\nconst apiKey = \"sk-proj-AbCdEfGh12345678\"") 1 = true ∧
    (crit001Check
      "This is WRONG:\nconst apiKey = \"sk-proj-AbCdEfGh12345678\"").map
      CheckHit.line ≠ some 2 :=
  ⟨by decide, crit001_marker_suppression.1
    "This is WRONG:\nconst apiKey = \"sk-proj-AbCdEfGh12345678\"" 1 (by decide)⟩

/-- Claim C8.  A rule id listed in the policy's `allowedPatterns` never
appears among the findings of `scanContent`, on any content and under any
content category. -/
theorem scanContent_allowedPatterns_exempt (content ct : String) (cfg : Config)
    (R : String) (h : (cfgAllowedPatterns (some cfg)).contains R = true) :
    (scanContent content ct (some cfg)).findings.filter (fun f => f.id = R) = [] := by
  rw [List.filter_eq_nil_iff]
  intro f hf
  have hfree := scanContent_mem_not_allowed hf
  simp only [decide_eq_true_eq]
  intro heq
  rw [heq] at hfree
  rw [hfree] at h
  cases h

/-- Exhibit for claim C8: CRIT-001 exempted. -/
def c8Cfg : Config := { defaultConfig with allowedPatterns := some ["CRIT-001"] }

/-- Witness for claim C8: exempting CRIT-001 silences it on content that
otherwise triggers it (claim C6). -/
theorem scanContent_allowedPatterns_exempt_witness :
    (cfgAllowedPatterns (some c8Cfg)).contains "CRIT-001" = true ∧
    (scanContent "const apiKey = \"sk-proj-AbCdEfGh12345678\"" "agent"
      (some c8Cfg)).findings.filter (fun f => f.id = "CRIT-001") = [] :=
  ⟨by decide,
   scanContent_allowedPatterns_exempt "const apiKey = \"sk-proj-AbCdEfGh12345678\""
     "agent" c8Cfg "CRIT-001" (by decide)⟩

/-- Claim C9.  `scanContent` is a pure function in this embedding, so two
invocations on identical content, category and configuration return
identical results — the same findings with the same ids, severities,
lines and excerpts, in the same order.  (Determinism is definitional for
the shallow embedding; the JS code likewise iterates a fixed array.) -/
theorem scanContent_deterministic (content ct : String) (config : Option Config) :
    scanContent content ct config = scanContent content ct config := rfl

/-- Claim C10 (counterexample).  A `.md` file in a nested subdirectory
below `agents/` is not always `unknown`: the skill test matches a
`skills` segment at any depth, so `agents/skills/x.md` classifies as
`skill`; likewise a nested directory that is itself a direct `commands/`
child classifies as `command`. -/
theorem detectContentType_nested_cex :
    detectContentType "agents/skills/x.md" = "skill" ∧
    detectContentType "agents/skills/x.md" ≠ "unknown" ∧
    detectContentType "agents/sub/commands/x.md" = "command" := by
  decide

/-- Claim C10 (amended).  `detectContentType` classifies a path as
`agent`, `command` or `rule` only when the `.md` file is a direct child
of the respective directory.  A `.md` path is `unknown` exactly when it
is neither a direct child of `agents/`, `commands/` or `rules/` nor
anywhere below a `skills/` directory — so a `.md` file nested below
`agents/`, `commands/` or `rules/` is `unknown` unless one of those
carve-outs applies.  A `.md` file below `skills/` classifies as `skill`
unless it is also a direct child of an `agents/` directory (the `agent`
test runs first). -/
theorem detectContentType_amended :
    (∀ p : String, detectContentType p = "agent" →
      directChildMd "agents" (splitCh '/' (normalizePath p)) = true) ∧
    (∀ p : String, detectContentType p = "command" →
      directChildMd "commands" (splitCh '/' (normalizePath p)) = true) ∧
    (∀ p : String, detectContentType p = "rule" →
      directChildMd "rules" (splitCh '/' (normalizePath p)) = true) ∧
    (∀ p : String,
      jsEndsWith (normalizePath p) ".md" = true →
      jsEndsWith ((splitCh '/' (normalizePath p)).reverse.headD "") ".md" = true →
      (detectContentType p = "unknown" ↔
        (directChildMd "agents" (splitCh '/' (normalizePath p)) = false ∧
         underSkills (splitCh '/' (normalizePath p)) = false ∧
         directChildMd "commands" (splitCh '/' (normalizePath p)) = false ∧
         directChildMd "rules" (splitCh '/' (normalizePath p)) = false))) ∧
    (∀ p : String,
      jsEndsWith (normalizePath p) ".md" = true →
      underSkills (splitCh '/' (normalizePath p)) = true →
      directChildMd "agents" (splitCh '/' (normalizePath p)) = false →
      detectContentType p = "skill") := by
  refine ⟨fun p h => ?_, fun p h => ?_, fun p h => ?_,
    fun p hmd hlast => ⟨fun h => ?_, fun hall => ?_⟩, fun p hmd hsk hna => ?_⟩
  · simp only [detectContentType] at h
    repeat' split at h
    all_goals first | assumption | exact absurd h (by decide)
  · simp only [detectContentType] at h
    repeat' split at h
    all_goals first | assumption | exact absurd h (by decide)
  · simp only [detectContentType] at h
    repeat' split at h
    all_goals first | assumption | exact absurd h (by decide)
  · simp only [detectContentType] at h
    repeat' split at h
    all_goals try exact absurd h (by decide)
    rename_i h1 h2 h3 h4 h5 h6
    refine ⟨by simpa using h1, ?_, by simpa using h3, by simpa using h4⟩
    by_cases hu : underSkills (splitCh '/' (normalizePath p)) = true
    · exact absurd (by simp [hu, hmd]) h2
    · simpa using hu
  · rcases hall with ⟨ha, hu, hc, hr⟩
    have hjson : hooksJsonPath (splitCh '/' (normalizePath p)) = false := by
      rcases hrv : (splitCh '/' (normalizePath p)).reverse with _ | ⟨file, rest⟩
      · simp [hooksJsonPath, hrv]
      · rcases rest with _ | ⟨parent, rest2⟩
        · simp [hooksJsonPath, hrv]
        · have hfile : jsEndsWith file ".md" = true := by
            rw [hrv] at hlast
            simpa using hlast
          have hne := jsEndsWith_md_ne_hooksJson hfile
          simp [hooksJsonPath, hrv, hne]
    have hscript : scriptsHooksJs (splitCh '/' (normalizePath p)) = false := by
      rcases hrv : (splitCh '/' (normalizePath p)).reverse with _ | ⟨file, rest⟩
      · simp [scriptsHooksJs, hrv]
      · rcases rest with _ | ⟨p1, rest2⟩
        · simp [scriptsHooksJs, hrv]
        · rcases rest2 with _ | ⟨p2, rest3⟩
          · simp [scriptsHooksJs, hrv]
          · have hfile : jsEndsWith file ".md" = true := by
              rw [hrv] at hlast
              simpa using hlast
            have hjs := jsEndsWith_md_not_js hfile
            simp [scriptsHooksJs, hrv, jsFileSeg, hjs]
    simp [detectContentType, ha, hu, hc, hr, hjson, hscript]
  · simp [detectContentType, hna, hsk, hmd]

/-- Witness for the amended claim C10, at the nested path
`agents/sub/x.md` (which classifies as `unknown`). -/
theorem detectContentType_amended_witness :
    jsEndsWith (normalizePath "agents/sub/x.md") ".md" = true ∧
    jsEndsWith ((splitCh '/' (normalizePath "agents/sub/x.md")).reverse.headD "")
      ".md" = true ∧
    (detectContentType "agents/sub/x.md" = "unknown" ↔
      (directChildMd "agents" (splitCh '/' (normalizePath "agents/sub/x.md")) = false ∧
       underSkills (splitCh '/' (normalizePath "agents/sub/x.md")) = false ∧
       directChildMd "commands" (splitCh '/' (normalizePath "agents/sub/x.md")) = false ∧
       directChildMd "rules" (splitCh '/' (normalizePath "agents/sub/x.md")) = false)) :=
  ⟨by decide, by decide,
   detectContentType_amended.2.2.2.1 "agents/sub/x.md" (by decide) (by decide)⟩

end SecurityGate
